import Mathlib

/-!
Verification of the bgent memory layer (`src/lib/memory.ts`) and the
evaluator-example renderer (`formatEvaluatorExamples`).

Modelling conventions:
* External collaborators (the Embedder `runtime.embed` and the
  StorageBackend `runtime.databaseAdapter`) are passed in as function
  parameters; a failing external call is an `Except.error`.
* Thrown JS errors become `Except.error`; the memory layer's own error
  type distinguishes the locally raised empty-content error from
  pass-through embedder failures.
* Embedding-vector entries are opaque to this layer (no arithmetic is
  ever performed on them here), so they are modelled as `Rat`, which
  also represents the literal thresholds 0.1 and 2 exactly.
* JS truthiness on an optional string (`!memoryText`) is `truthy`:
  `undefined` and `""` are falsy.  A JS array (even `[]`) is truthy,
  so the `memory.embedding` presence check is `Option.isSome`.
* The random name generator `uniqueNamesGenerator` is modelled as a
  supply `gen : Nat → String` indexed by call count, threaded through
  the renderer as explicit state.
-/

namespace Bgent

/-- Embedding-vector entries; opaque floating-point data to this layer. -/
abbrev Scalar := Rat

/-- `export const embeddingDimension = 1536`. -/
def embeddingDimension : Nat := 1536

/-- `export const embeddingZeroVector = Array(embeddingDimension).fill(0)`. -/
def embeddingZeroVector : List Scalar := List.replicate embeddingDimension 0

/-- `const defaultMatchThreshold = 0.1`. -/
def defaultMatchThreshold : Rat := 1 / 10

/-- `const defaultMatchCount = 10`. -/
def defaultMatchCount : Nat := 10

/-- Structured message payload: a text field and an optional action tag.
Both optional here, since the empty-content check treats an absent text
like an empty one. -/
structure Content where
  content : Option String
  action : Option String
deriving Repr, DecidableEq

/-- A memory record: identity, payload, optional embedding vector. -/
structure Memory where
  id : String
  userId : String
  content : Content
  embedding : Option (List Scalar)
deriving Repr, DecidableEq

/-- Errors surfaced by `addEmbeddingToMemory`: the locally thrown
`Error("Memory content is empty")`, or a pass-through embedder failure. -/
inductive MemErr where
  | emptyContent
  | embedderFailure (msg : String)
deriving Repr, DecidableEq

/-- JS truthiness of an optional string: `undefined` and `""` are falsy. -/
def truthy : Option String → Bool
  | none => false
  | some s => !s.isEmpty

/-- JS string interpolation of a possibly-undefined value. -/
def jsStr : Option String → String
  | none => "undefined"
  | some s => s

/-- `MemoryManager.addEmbeddingToMemory`, mirrored from the source:

    if (memory.embedding) { return memory; }
    const memoryText = memory.content.content;
    if (!memoryText) throw new Error("Memory content is empty");
    memory.embedding = memoryText
      ? await this.runtime.embed(memoryText)
      : embeddingZeroVector.slice();
    return memory;

The ternary's zero-vector branch is kept exactly as written even though
the preceding throw makes it dead (see the claim about unreachability). -/
def addEmbeddingToMemory (embed : String → Except String (List Scalar))
    (memory : Memory) : Except MemErr Memory :=
  if memory.embedding.isSome then
    Except.ok memory
  else
    let memoryText := memory.content.content
    if truthy memoryText = false then
      Except.error MemErr.emptyContent
    else
      let embedded : Except String (List Scalar) :=
        if truthy memoryText then embed (jsStr memoryText)
        else Except.ok embeddingZeroVector
      match embedded with
      | Except.error e => Except.error (MemErr.embedderFailure e)
      | Except.ok vec => Except.ok { memory with embedding := some vec }

/-- `addEmbeddingToMemory` with the ternary's dead zero-vector fallback
removed: the embedder is always consulted once control passes the
empty-content check.  Used to state that the fallback is unreachable. -/
def addEmbeddingToMemoryNoFallback (embed : String → Except String (List Scalar))
    (memory : Memory) : Except MemErr Memory :=
  if memory.embedding.isSome then
    Except.ok memory
  else
    let memoryText := memory.content.content
    if truthy memoryText = false then
      Except.error MemErr.emptyContent
    else
      match embed (jsStr memoryText) with
      | Except.error e => Except.error (MemErr.embedderFailure e)
      | Except.ok vec => Except.ok { memory with embedding := some vec }

/-- `!!unique`: JS double negation coerces `undefined` to `false`. -/
def doubleBang : Option Bool → Bool
  | none => false
  | some b => b

/-- Argument record of `databaseAdapter.searchMemories`. -/
structure SearchMemoriesParams where
  tableName : String
  userIds : List String
  embedding : List Scalar
  match_threshold : Rat
  match_count : Nat
  unique : Bool
deriving Repr, DecidableEq

/-- Options object of `searchMemoriesByEmbedding`; absent fields are `none`. -/
structure SearchOpts where
  match_threshold : Option Rat
  count : Option Nat
  userIds : Option (List String)
  unique : Option Bool
deriving Repr, DecidableEq

/-- `MemoryManager.searchMemoriesByEmbedding`: destructures the options
with defaults (`match_threshold = defaultMatchThreshold`,
`count = defaultMatchCount`, `userIds = []`, `unique` taken as is) and
delegates to `databaseAdapter.searchMemories` with the bound table name,
forwarding `!!unique`; the backend result is returned as is. -/
def searchMemoriesByEmbedding
    (searchMemories : SearchMemoriesParams → Except String (List Memory))
    (tableName : String) (embedding : List Scalar) (opts : SearchOpts) :
    Except String (List Memory) :=
  let match_threshold := opts.match_threshold.getD defaultMatchThreshold
  let count := opts.count.getD defaultMatchCount
  let userIds := opts.userIds.getD []
  let unique := opts.unique
  searchMemories
    { tableName := tableName
      userIds := userIds
      embedding := embedding
      match_threshold := match_threshold
      match_count := count
      unique := doubleBang unique }

/-- Argument record of `databaseAdapter.getMemoryByContent`. -/
structure GetMemoryByContentParams where
  query_table_name : String
  query_threshold : Rat
  query_input : String
  query_field_name : String
  query_field_sub_name : String
  query_match_count : Nat
deriving Repr, DecidableEq

/-- `MemoryManager.getMemoryByContent`: a single fixed-parameter
content-similarity query (threshold 2, count 10, field `content`,
sub-field `content`), result returned as is.  The backend's
`SimilaritySearch` row type is opaque here, hence the polymorphism. -/
def getMemoryByContent {σ : Type}
    (backendGetMemoryByContent : GetMemoryByContentParams → Except String (List σ))
    (tableName : String) (content : String) : Except String (List σ) :=
  backendGetMemoryByContent
    { query_table_name := tableName
      query_threshold := 2
      query_input := content
      query_field_name := "content"
      query_field_sub_name := "content"
      query_match_count := 10 }

/-- Argument record of `databaseAdapter.getMemoriesByIds`. -/
structure GetMemoriesParams where
  userIds : List String
  count : Nat
  unique : Bool
  tableName : String
deriving Repr, DecidableEq

/-- `MemoryManager.getMemoriesByIds` (defaults `count = 10`,
`unique = true`): direct delegation. -/
def getMemoriesByIds
    (backendGetMemoriesByIds : GetMemoriesParams → Except String (List Memory))
    (tableName : String) (userIds : List String)
    (count : Option Nat) (unique : Option Bool) : Except String (List Memory) :=
  backendGetMemoriesByIds
    { userIds := userIds
      count := count.getD 10
      unique := unique.getD true
      tableName := tableName }

/-- `MemoryManager.createMemory` (default `unique = false`): direct
delegation to `databaseAdapter.createMemory(memory, tableName, unique)`. -/
def createMemory (backendCreateMemory : Memory → String → Bool → Except String Unit)
    (tableName : String) (memory : Memory) (unique : Option Bool) :
    Except String Unit :=
  backendCreateMemory memory tableName (unique.getD false)

/-- `MemoryManager.removeMemory`: direct delegation. -/
def removeMemory (backendRemoveMemory : String → String → Except String Unit)
    (tableName : String) (memoryId : String) : Except String Unit :=
  backendRemoveMemory memoryId tableName

/-- `MemoryManager.removeAllMemoriesByUserIds`: direct delegation. -/
def removeAllMemoriesByUserIds
    (backendRemoveAll : List String → String → Except String Unit)
    (tableName : String) (userIds : List String) : Except String Unit :=
  backendRemoveAll userIds tableName

/-- `MemoryManager.countMemoriesByUserIds` (default `unique = true`):
direct delegation. -/
def countMemoriesByUserIds
    (backendCount : List String → Bool → String → Except String Nat)
    (tableName : String) (userIds : List String) (unique : Option Bool) :
    Except String Nat :=
  backendCount userIds (unique.getD true) tableName

/-! ### Evaluator examples renderer (`formatEvaluatorExamples`) -/

/-- A message inside an evaluator example (`ActionExample`). -/
structure ActionExample where
  user : String
  content : Content
deriving Repr, DecidableEq

/-- One evaluator example: context, messages, outcome. -/
structure EvalExample where
  context : String
  messages : List ActionExample
  outcome : String
deriving Repr, DecidableEq

/-- An evaluator, as far as example rendering is concerned. -/
structure Evaluator where
  name : String
  description : String
  condition : String
  examples : List EvalExample
deriving Repr, DecidableEq

/-- JS `String.prototype.replaceAll` with a non-empty literal pattern, on
character lists: scan left to right, replace every non-overlapping
occurrence of `p` by `r`, resume scanning after the replacement. -/
def replaceAll (p r : List Char) : List Char → List Char
  | [] => []
  | c :: cs =>
    if p ≠ [] ∧ p.isPrefixOf (c :: cs) then
      r ++ replaceAll p r (List.drop (p.length - 1) cs)
    else
      c :: replaceAll p r cs
termination_by s => s.length
decreasing_by
  · have : (List.drop (p.length - 1) cs).length ≤ cs.length := by
      simp [List.length_drop]
    simp only [List.length_cons]
    omega
  · simp [List.length_cons]

/-- `s.replaceAll(pat, rep)` on `String`. -/
def replaceAllStr (s pat rep : String) : String :=
  String.mk (replaceAll pat.data rep.data s.data)

/-- The placeholder string for participant `i`, user1 through user5. -/
def placeholder (i : Nat) : String :=
  "\x7b\x7buser" ++ toString i ++ "\x7d\x7d"

/-- `exampleNames.forEach((name, index) => s = s.replaceAll(...))` with a
running 0-based index `i`. -/
def substNamesFrom (s : String) (i : Nat) : List String → String
  | [] => s
  | name :: rest =>
      substNamesFrom (replaceAllStr s (placeholder (i + 1)) name) (i + 1) rest

/-- Substitute `ns.get i` for every occurrence of the placeholder
user(i+1), for each name in order. -/
def substNames (ns : List String) (s : String) : String :=
  substNamesFrom s 0 ns

/-- One message line: `` `${message.user}: ${message.content.content}` ``
with the placeholders substituted, then the ` (action)` suffix when the
action tag is truthy (the suffix itself is not substituted). -/
def formatMessage (ns : List String) (msg : ActionExample) : String :=
  let messageString := msg.user ++ ": " ++ jsStr msg.content.content
  let messageString := substNames ns messageString
  messageString ++
    (if truthy msg.content.action then
      " (" ++ jsStr msg.content.action ++ ")"
    else "")

/-- The body of the inner `examples.map`: render one example with the
five names `ns` drawn for it. -/
def formatExample (ns : List String) (ex : EvalExample) : String :=
  let formattedContext := substNames ns ex.context
  let formattedOutcome := substNames ns ex.outcome
  let formattedMessages :=
    String.intercalate "\n" (ex.messages.map (formatMessage ns))
  "Context:\n" ++ formattedContext ++ "\n\nMessages:\n" ++ formattedMessages ++
    "\n\nOutcome:\n" ++ formattedOutcome

/-- `Array.from({length: 5}, () => uniqueNamesGenerator(...))`: five
successive draws from the name supply starting at call counter `ctr`. -/
def drawNames (gen : Nat → String) (ctr : Nat) : List String :=
  (List.range 5).map (fun i => gen (ctr + i))

/-- Render an evaluator's example list, threading the name-supply call
counter: each example draws 5 fresh names. -/
def formatExamplesGo (gen : Nat → String) (ctr : Nat) :
    List EvalExample → List String × Nat
  | [] => ([], ctr)
  | ex :: rest =>
      let ns := drawNames gen ctr
      let rdone := formatExamplesGo gen (ctr + 5) rest
      (formatExample ns ex :: rdone.1, rdone.2)

/-- Render each evaluator (examples joined with a blank line), threading
the name-supply call counter across evaluators. -/
def formatEvaluatorsGo (gen : Nat → String) (ctr : Nat) :
    List Evaluator → List String × Nat
  | [] => ([], ctr)
  | ev :: rest =>
      let exs := formatExamplesGo gen ctr ev.examples
      let rdone := formatEvaluatorsGo gen exs.2 rest
      (String.intercalate "\n\n" exs.1 :: rdone.1, rdone.2)

/-- `formatEvaluatorExamples(evaluators)`: per-evaluator renderings
joined with a blank line; the random name generator is the supply
`gen`, consumed in call order starting at 0. -/
def formatEvaluatorExamples (gen : Nat → String) (evaluators : List Evaluator) :
    String :=
  String.intercalate "\n\n" (formatEvaluatorsGo gen 0 evaluators).1

/-- Specification-side rendering: the example at global (flattened)
position `j` uses exactly the names drawn at supply indices
`5*j .. 5*j+4`. -/
def renderExamplesFrom (gen : Nat → String) (j : Nat) :
    List EvalExample → List String
  | [] => []
  | ex :: rest =>
      formatExample (drawNames gen (5 * j)) ex :: renderExamplesFrom gen (j + 1) rest

/-- Total number of examples across a list of evaluators. -/
def totalExamples : List Evaluator → Nat
  | [] => 0
  | ev :: rest => ev.examples.length + totalExamples rest

/-- Specification-side rendering of the evaluator list, with `j` the
global index of the first example of the first evaluator. -/
def renderEvaluatorsFrom (gen : Nat → String) (j : Nat) :
    List Evaluator → List String
  | [] => []
  | ev :: rest =>
      String.intercalate "\n\n" (renderExamplesFrom gen j ev.examples) ::
        renderEvaluatorsFrom gen (j + ev.examples.length) rest

/-! ### Lemmas about `replaceAll` -/

theorem replaceAll_nil (p r : List Char) : replaceAll p r [] = [] := by
  simp [replaceAll]

theorem replaceAll_cons_pos (p r : List Char) (c : Char) (cs : List Char)
    (h1 : p ≠ []) (h2 : p.isPrefixOf (c :: cs)) :
    replaceAll p r (c :: cs) = r ++ replaceAll p r (List.drop (p.length - 1) cs) := by
  rw [replaceAll]
  simp [h1, h2]

theorem replaceAll_cons_neg (p r : List Char) (c : Char) (cs : List Char)
    (h : ¬ (p ≠ [] ∧ p.isPrefixOf (c :: cs))) :
    replaceAll p r (c :: cs) = c :: replaceAll p r cs := by
  rw [replaceAll]
  simp only [if_neg h]

/-- If the pattern does not occur in `s` at all, `replaceAll` is the
identity on `s`. -/
theorem replaceAll_of_absent (p r s : List Char) (h : ¬ p <:+: s) :
    replaceAll p r s = s := by
  induction s with
  | nil => exact replaceAll_nil p r
  | cons c cs ih =>
    have hp : ¬ p.isPrefixOf (c :: cs) := by
      intro hpre
      exact h (List.IsPrefix.isInfix (List.isPrefixOf_iff_prefix.mp hpre))
    rw [replaceAll_cons_neg p r c cs (fun hc => hp hc.2)]
    rw [ih (fun hinf => h (List.infix_cons hinf))]

/-- An occurrence of the (non-empty) pattern at the head is replaced, and
scanning continues on the remainder — so later occurrences are replaced
too, not only the first. -/
theorem replaceAll_head (p r s : List Char) (h : p ≠ []) :
    replaceAll p r (p ++ s) = r ++ replaceAll p r s := by
  match p, h with
  | d :: ds, _ =>
    have h2 : (d :: ds).isPrefixOf (d :: (ds ++ s)) := by
      exact List.isPrefixOf_iff_prefix.mpr ⟨s, by simp⟩
    rw [List.cons_append]
    rw [replaceAll_cons_pos (d :: ds) r d (ds ++ s) (by simp) h2]
    simp [List.drop_left]

/-- When the pattern does not start at the current position, the
character is kept and scanning continues with the tail. -/
theorem replaceAll_cons_skip (p r : List Char) (c : Char) (s : List Char)
    (h : ¬ p.isPrefixOf (c :: s)) :
    replaceAll p r (c :: s) = c :: replaceAll p r s :=
  replaceAll_cons_neg p r c s (fun hc => h hc.2)

/-- Lift of `replaceAll_of_absent` to `String`s. -/
theorem replaceAllStr_of_absent (s pat rep : String)
    (h : ¬ pat.data <:+: s.data) : replaceAllStr s pat rep = s := by
  unfold replaceAllStr
  rw [replaceAll_of_absent pat.data rep.data s.data h]

/-- If none of the placeholders user(i+1), user(i+2), … that the
remaining names would substitute occurs in `s`, the substitution loop
leaves `s` unchanged. -/
theorem substNamesFrom_of_absent (ns : List String) :
    ∀ (i : Nat) (s : String),
      (∀ k, k < ns.length → ¬ (placeholder (i + k + 1)).data <:+: s.data) →
      substNamesFrom s i ns = s := by
  induction ns with
  | nil => intro i s _; rfl
  | cons name rest ih =>
    intro i s h
    have h0 : ¬ (placeholder (i + 1)).data <:+: s.data := by
      have := h 0 (by simp)
      simpa using this
    unfold substNamesFrom
    rw [replaceAllStr_of_absent s (placeholder (i + 1)) name h0]
    refine ih (i + 1) s (fun k hk => ?_)
    have := h (k + 1) (by simpa using Nat.succ_lt_succ hk)
    have harr : i + (k + 1) + 1 = i + 1 + k + 1 := by omega
    rwa [harr] at this

/-- If none of the placeholders user1..user(ns.length) occurs in `s`,
`substNames` leaves `s` unchanged. -/
theorem substNames_of_absent (ns : List String) (s : String)
    (h : ∀ k, k < ns.length → ¬ (placeholder (k + 1)).data <:+: s.data) :
    substNames ns s = s := by
  unfold substNames
  exact substNamesFrom_of_absent ns 0 s (by simpa using h)

/-! ### Name-supply threading lemmas -/

/-- Rendering an example list starting at call counter `5*j` renders the
`n`-th example of the list with the names drawn at indices
`5*(j+n) .. 5*(j+n)+4`, and consumes exactly five draws per example. -/
theorem formatExamplesGo_renderFrom (gen : Nat → String) :
    ∀ (exs : List EvalExample) (j : Nat),
      formatExamplesGo gen (5 * j) exs =
        (renderExamplesFrom gen j exs, 5 * (j + exs.length)) := by
  intro exs
  induction exs with
  | nil => intro j; simp [formatExamplesGo, renderExamplesFrom]
  | cons ex rest ih =>
    intro j
    have h5 : 5 * j + 5 = 5 * (j + 1) := by ring
    unfold formatExamplesGo renderExamplesFrom
    rw [h5, ih (j + 1)]
    simp [List.length_cons]
    ring

/-- Rendering the evaluator list starting at call counter `5*j` gives the
position-indexed rendering and consumes five draws per example overall. -/
theorem formatEvaluatorsGo_renderFrom (gen : Nat → String) :
    ∀ (evs : List Evaluator) (j : Nat),
      formatEvaluatorsGo gen (5 * j) evs =
        (renderEvaluatorsFrom gen j evs, 5 * (j + totalExamples evs)) := by
  intro evs
  induction evs with
  | nil => intro j; simp [formatEvaluatorsGo, renderEvaluatorsFrom, totalExamples]
  | cons ev rest ih =>
    intro j
    unfold formatEvaluatorsGo renderEvaluatorsFrom
    rw [formatExamplesGo_renderFrom gen ev.examples j]
    dsimp only
    rw [ih (j + ev.examples.length)]
    simp [totalExamples]
    ring

/-! ### Error characterization of `addEmbeddingToMemory` -/

/-- The locally raised empty-content error occurs exactly when the
embedding is absent and the content text is falsy. -/
theorem emptyContent_iff_aux (embed : String → Except String (List Scalar))
    (m : Memory) :
    addEmbeddingToMemory embed m = Except.error MemErr.emptyContent ↔
      m.embedding = none ∧ truthy m.content.content = false := by
  unfold addEmbeddingToMemory
  cases hm : m.embedding with
  | some v => simp [hm]
  | none =>
    simp only [hm, Option.isSome_none, Bool.false_eq_true, if_false]
    cases ht : truthy m.content.content with
    | false => simp [ht]
    | true =>
      simp only [ht, Bool.true_eq_false, if_false, if_true]
      cases hv : embed (jsStr m.content.content) with
      | error e => simp [hv]
      | ok vec => simp [hv]

/-- An embedder-failure error surfaced by `addEmbeddingToMemory` is
exactly the embedder's own error on the memory's content text. -/
theorem embedderFailure_passthrough_aux
    (embed : String → Except String (List Scalar)) (m : Memory) (e : String)
    (h : addEmbeddingToMemory embed m = Except.error (MemErr.embedderFailure e)) :
    embed (jsStr m.content.content) = Except.error e := by
  unfold addEmbeddingToMemory at h
  cases hm : m.embedding with
  | some v => simp [hm] at h
  | none =>
    simp only [hm, Option.isSome_none, Bool.false_eq_true, if_false] at h
    cases ht : truthy m.content.content with
    | false => simp [ht] at h
    | true =>
      simp only [ht, Bool.true_eq_false, if_false, if_true] at h
      cases hv : embed (jsStr m.content.content) with
      | error e0 =>
        simp only [hv] at h
        cases h
        rfl
      | ok vec => simp [hv] at h

/-! ### Claim theorems -/

/-- C1: for a Memory with no embedding and non-empty content text, and an
embedder honouring the `float[D]` contract, `addEmbeddingToMemory`
returns the memory with its embedding set to the embedder's output for
that text, of length exactly D = 1536. -/
theorem addEmbeddingToMemory_sets_embedder_output_of_dimension
    (embed : String → Except String (List Scalar)) (m : Memory) (t : String)
    (v : List Scalar)
    (hdim : ∀ u w, embed u = Except.ok w → w.length = embeddingDimension)
    (hnone : m.embedding = none)
    (htxt : m.content.content = some t) (hne : t ≠ "")
    (hv : embed t = Except.ok v) :
    addEmbeddingToMemory embed m = Except.ok { m with embedding := some v } ∧
      v.length = 1536 := by
  have hie : t.isEmpty = false := by
    cases h : t.isEmpty
    · rfl
    · exact absurd ((String.isEmpty_iff t).mp h) hne
  have htr : truthy m.content.content = true := by
    rw [htxt]
    simp [truthy, hie]
  constructor
  · unfold addEmbeddingToMemory
    simp only [hnone, Option.isSome_none, Bool.false_eq_true, if_false, htr,
      Bool.true_eq_false, if_true]
    rw [htxt]
    simp only [jsStr, hv]
  · have := hdim t v hv
    simpa [embeddingDimension] using this

/-- C1 witness at a concrete memory and embedder. -/
theorem addEmbeddingToMemory_sets_embedder_output_of_dimension_witness :
    addEmbeddingToMemory (fun _ => Except.ok (List.replicate 1536 (0 : Scalar)))
        ⟨"id0", "user0", ⟨some "hello", none⟩, none⟩ =
      Except.ok ⟨"id0", "user0", ⟨some "hello", none⟩,
        some (List.replicate 1536 (0 : Scalar))⟩ ∧
      (List.replicate 1536 (0 : Scalar)).length = 1536 :=
  addEmbeddingToMemory_sets_embedder_output_of_dimension
    (fun _ => Except.ok (List.replicate 1536 (0 : Scalar)))
    ⟨"id0", "user0", ⟨some "hello", none⟩, none⟩ "hello"
    (List.replicate 1536 (0 : Scalar))
    (fun _ w hw => by
      cases hw
      exact (List.length_replicate 1536 0).trans rfl)
    rfl rfl (by decide) rfl

/-- C2: a Memory whose embedding is already set is returned unchanged. -/
theorem addEmbeddingToMemory_noop_of_embedding_set
    (embed : String → Except String (List Scalar)) (m : Memory)
    (h : m.embedding.isSome = true) :
    addEmbeddingToMemory embed m = Except.ok m := by
  unfold addEmbeddingToMemory
  simp [h]

/-- C2 witness at a concrete memory with an embedding present. -/
theorem addEmbeddingToMemory_noop_of_embedding_set_witness :
    addEmbeddingToMemory (fun _ => Except.error "down")
        ⟨"id1", "user1", ⟨some "txt", none⟩, some [1, 2]⟩ =
      Except.ok ⟨"id1", "user1", ⟨some "txt", none⟩, some [1, 2]⟩ :=
  addEmbeddingToMemory_noop_of_embedding_set (fun _ => Except.error "down")
    ⟨"id1", "user1", ⟨some "txt", none⟩, some [1, 2]⟩ rfl

/-- C3: `addEmbeddingToMemory` raises the empty-content error exactly
when the embedding is absent and the content text is absent or empty;
any other error it surfaces is the embedder's own failure, passed
through unchanged. -/
theorem addEmbeddingToMemory_emptyContent_error
    (embed : String → Except String (List Scalar)) (m : Memory) :
    (addEmbeddingToMemory embed m = Except.error MemErr.emptyContent ↔
      m.embedding = none ∧ truthy m.content.content = false) ∧
    (∀ e, addEmbeddingToMemory embed m = Except.error (MemErr.embedderFailure e) →
      embed (jsStr m.content.content) = Except.error e) :=
  ⟨emptyContent_iff_aux embed m, fun e h => embedderFailure_passthrough_aux embed m e h⟩

/-- C3 witness: a concrete empty-content memory does fail. -/
theorem addEmbeddingToMemory_emptyContent_error_witness :
    addEmbeddingToMemory (fun _ => Except.ok ([] : List Scalar))
        ⟨"id2", "user2", ⟨some "", none⟩, none⟩ =
      Except.error MemErr.emptyContent :=
  (addEmbeddingToMemory_emptyContent_error (fun _ => Except.ok ([] : List Scalar))
      ⟨"id2", "user2", ⟨some "", none⟩, none⟩).1.mpr ⟨rfl, rfl⟩

/-- C9: the zero-vector fallback branch of the ternary is dead code:
`addEmbeddingToMemory` coincides with the variant in which that branch
is removed, for every embedder and every memory. -/
theorem addEmbeddingToMemory_fallback_unreachable
    (embed : String → Except String (List Scalar)) (m : Memory) :
    addEmbeddingToMemory embed m = addEmbeddingToMemoryNoFallback embed m := by
  unfold addEmbeddingToMemory addEmbeddingToMemoryNoFallback
  by_cases h : m.embedding.isSome = true
  · simp [h]
  · simp only [h, if_false]
    cases ht : truthy m.content.content with
    | false => simp [ht]
    | true => simp [ht]

/-- C4: `searchMemoriesByEmbedding` forwards exactly the given vector,
the match threshold (defaulting to 0.1), the count (defaulting to 10),
the user-id list (defaulting to empty), the uniqueness flag, and the
bound table name to the backend's `searchMemories`, returning its result
unmodified — stated for an arbitrary backend, which pins down both the
forwarded record and the untouched result. -/
theorem searchMemoriesByEmbedding_forwards_exactly
    (f : SearchMemoriesParams → Except String (List Memory))
    (tableName : String) (embedding : List Scalar) (opts : SearchOpts) :
    searchMemoriesByEmbedding f tableName embedding opts =
      f { tableName := tableName
          userIds := opts.userIds.getD []
          embedding := embedding
          match_threshold := opts.match_threshold.getD defaultMatchThreshold
          match_count := opts.count.getD defaultMatchCount
          unique := opts.unique.getD false } ∧
    defaultMatchThreshold = 1 / 10 ∧ defaultMatchCount = 10 := by
  refine ⟨?_, rfl, rfl⟩
  unfold searchMemoriesByEmbedding
  cases h : opts.unique <;> simp [h, doubleBang]

/-- C5: `getMemoryByContent` issues the single fixed-parameter
content-similarity query (threshold 2, match count 10, field `content`,
sub-field `content`, bound table name) and returns the backend's rows
unmodified — stated for an arbitrary backend and row type. -/
theorem getMemoryByContent_fixed_query {σ : Type}
    (f : GetMemoryByContentParams → Except String (List σ))
    (tableName content : String) :
    getMemoryByContent f tableName content =
      f { query_table_name := tableName
          query_threshold := 2
          query_input := content
          query_field_name := "content"
          query_field_sub_name := "content"
          query_match_count := 10 } :=
  rfl

/-- C10: when the `unique` option is omitted, the backend receives the
definite boolean `false` for the uniqueness flag (`!!undefined`). -/
theorem searchMemoriesByEmbedding_unique_defaults_false
    (f : SearchMemoriesParams → Except String (List Memory))
    (tableName : String) (embedding : List Scalar) (opts : SearchOpts)
    (h : opts.unique = none) :
    searchMemoriesByEmbedding f tableName embedding opts =
      f { tableName := tableName
          userIds := opts.userIds.getD []
          embedding := embedding
          match_threshold := opts.match_threshold.getD defaultMatchThreshold
          match_count := opts.count.getD defaultMatchCount
          unique := false } := by
  unfold searchMemoriesByEmbedding
  rw [h]
  rfl

/-- C10 witness at a concrete backend and empty options. -/
theorem searchMemoriesByEmbedding_unique_defaults_false_witness :
    searchMemoriesByEmbedding (fun p => Except.ok (if p.unique then [] else []))
        "memories" [1, 2] ⟨none, none, none, none⟩ =
      (fun (p : SearchMemoriesParams) => Except.ok (if p.unique then [] else []))
        { tableName := "memories"
          userIds := []
          embedding := [1, 2]
          match_threshold := defaultMatchThreshold
          match_count := defaultMatchCount
          unique := false } :=
  searchMemoriesByEmbedding_unique_defaults_false
    (fun p => Except.ok (if p.unique then [] else []))
    "memories" [1, 2] ⟨none, none, none, none⟩ rfl

/-- C8: every store operation is a single direct delegation to its
backend call — so backend failures (the `Except.error` results) surface
to the caller unchanged, with no retry and no local recovery — and the
only locally raised error anywhere in the store is the empty-content
error of `addEmbeddingToMemory`; embedder failures are likewise passed
through unchanged. -/
theorem memoryStore_single_delegation_and_local_errors :
    (∀ (f : GetMemoriesParams → Except String (List Memory)) tn uids cnt unq,
      getMemoriesByIds f tn uids cnt unq =
        f ⟨uids, cnt.getD 10, unq.getD true, tn⟩) ∧
    (∀ (σ : Type) (f : GetMemoryByContentParams → Except String (List σ)) tn c,
      getMemoryByContent f tn c = f ⟨tn, 2, c, "content", "content", 10⟩) ∧
    (∀ (f : SearchMemoriesParams → Except String (List Memory)) tn e opts,
      searchMemoriesByEmbedding f tn e opts =
        f ⟨tn, opts.userIds.getD [], e, opts.match_threshold.getD defaultMatchThreshold,
          opts.count.getD defaultMatchCount, doubleBang opts.unique⟩) ∧
    (∀ (f : Memory → String → Bool → Except String Unit) tn m unq,
      createMemory f tn m unq = f m tn (unq.getD false)) ∧
    (∀ (f : String → String → Except String Unit) tn mid,
      removeMemory f tn mid = f mid tn) ∧
    (∀ (f : List String → String → Except String Unit) tn uids,
      removeAllMemoriesByUserIds f tn uids = f uids tn) ∧
    (∀ (f : List String → Bool → String → Except String Nat) tn uids unq,
      countMemoriesByUserIds f tn uids unq = f uids (unq.getD true) tn) ∧
    (∀ (embed : String → Except String (List Scalar)) (m : Memory),
      (addEmbeddingToMemory embed m = Except.error MemErr.emptyContent ↔
        m.embedding = none ∧ truthy m.content.content = false) ∧
      (∀ e, addEmbeddingToMemory embed m = Except.error (MemErr.embedderFailure e) →
        embed (jsStr m.content.content) = Except.error e)) := by
  refine ⟨fun f tn uids cnt unq => rfl, fun σ f tn c => rfl, ?_,
    fun f tn m unq => rfl, fun f tn mid => rfl, fun f tn uids => rfl,
    fun f tn uids unq => rfl,
    fun embed m => ⟨emptyContent_iff_aux embed m,
      fun e h => embedderFailure_passthrough_aux embed m e h⟩⟩
  intro f tn e opts
  rfl

/-- C8 witness: a concrete backend failure is surfaced unchanged by a
delegating operation, and a concrete empty-content memory raises the
single local error. -/
theorem memoryStore_single_delegation_and_local_errors_witness :
    removeMemory (fun _ _ => Except.error "backend down") "tbl" "mem1" =
      Except.error "backend down" ∧
    addEmbeddingToMemory (fun _ => Except.ok ([] : List Scalar))
        ⟨"id3", "user3", ⟨none, none⟩, none⟩ =
      Except.error MemErr.emptyContent := by
  have h := memoryStore_single_delegation_and_local_errors
  exact ⟨h.2.2.2.2.1 (fun _ _ => Except.error "backend down") "tbl" "mem1",
    (h.2.2.2.2.2.2.2 (fun _ => Except.ok ([] : List Scalar))
        ⟨"id3", "user3", ⟨none, none⟩, none⟩).1.mpr ⟨rfl, rfl⟩⟩

/-- C6: `formatEvaluatorExamples` renders the example at global
(flattened) position `j` with the single name list drawn at supply
indices `5*j .. 5*j+4`; within one example that same name list is
applied to the context, every message, and the outcome; distinct
examples draw from disjoint supply index ranges, so no generated name
set is shared across examples or evaluators. -/
theorem formatEvaluatorExamples_names_consistent_and_fresh :
    (∀ (gen : Nat → String) (evs : List Evaluator),
      formatEvaluatorExamples gen evs =
        String.intercalate "\n\n" (renderEvaluatorsFrom gen 0 evs)) ∧
    (∀ (ns : List String) (ex : EvalExample),
      formatExample ns ex =
        "Context:\n" ++ substNames ns ex.context ++ "\n\nMessages:\n" ++
          String.intercalate "\n" (ex.messages.map (formatMessage ns)) ++
          "\n\nOutcome:\n" ++ substNames ns ex.outcome) ∧
    (∀ j k a b : Nat, j ≠ k → a < 5 → b < 5 → 5 * j + a ≠ 5 * k + b) := by
  refine ⟨?_, fun ns ex => rfl, fun j k a b hjk ha hb => by omega⟩
  intro gen evs
  unfold formatEvaluatorExamples
  rw [show (0 : Nat) = 5 * 0 from rfl, formatEvaluatorsGo_renderFrom gen evs 0]

/-- C6 witness: disjointness of the draw indices of examples 0 and 1,
and the position-indexed rendering at a concrete evaluator list. -/
theorem formatEvaluatorExamples_names_consistent_and_fresh_witness :
    5 * 0 + 0 ≠ 5 * 1 + 0 ∧
    formatEvaluatorExamples (fun n => toString n)
        [⟨"ev", "d", "c", [⟨"ctx", [], "out"⟩]⟩] =
      String.intercalate "\n\n" (renderEvaluatorsFrom (fun n => toString n) 0
        [⟨"ev", "d", "c", [⟨"ctx", [], "out"⟩]⟩]) := by
  have h := formatEvaluatorExamples_names_consistent_and_fresh
  exact ⟨h.2.2 0 1 0 0 (by decide) (by decide) (by decide),
    h.1 (fun n => toString n) [⟨"ev", "d", "c", [⟨"ctx", [], "out"⟩]⟩]⟩

/-- C7: placeholder substitution is total literal replacement of every
occurrence: a pattern absent from the string leaves it unchanged (so an
example using fewer than five placeholders renders with no substitution
for the absent ones and no error); an occurrence at the current
position is replaced and scanning resumes after it, so later
occurrences are replaced too; a non-matching position is kept verbatim;
and a string containing none of user1..user(ns.length) is left
unchanged by the whole substitution pass. -/
theorem substitution_total_replaces_all :
    (∀ p r s : List Char, ¬ p <:+: s → replaceAll p r s = s) ∧
    (∀ p r s : List Char, p ≠ [] →
      replaceAll p r (p ++ s) = r ++ replaceAll p r s) ∧
    (∀ (p r : List Char) (c : Char) (s : List Char), ¬ p.isPrefixOf (c :: s) →
      replaceAll p r (c :: s) = c :: replaceAll p r s) ∧
    (∀ (ns : List String) (s : String),
      (∀ k, k < ns.length → ¬ (placeholder (k + 1)).data <:+: s.data) →
      substNames ns s = s) :=
  ⟨replaceAll_of_absent, replaceAll_head, replaceAll_cons_skip,
    substNames_of_absent⟩

/-- C7 witness: a leading occurrence is replaced with scanning
continuing on a remainder that still contains the pattern, and a
placeholder-free string passes through all five substitutions
unchanged. -/
theorem substitution_total_replaces_all_witness :
    replaceAll "ab".data "X".data ("ab".data ++ "cab".data) =
      "X".data ++ replaceAll "ab".data "X".data "cab".data ∧
    substNames ["A", "B", "C", "D", "E"] "hello" = "hello" := by
  have h := substitution_total_replaces_all
  exact ⟨h.2.1 "ab".data "X".data "cab".data (by decide),
    h.2.2.2 ["A", "B", "C", "D", "E"] "hello" (by decide)⟩

end Bgent
